import Mathlib

/-!
Verification of the desktop-todolist native backend (Tauri/Rust) against its
design specification.  The Rust sources are shallowly embedded: pure helpers
become Lean functions, file and registry I/O becomes explicit state passing
(`FileState`, `Option String` store values, failure oracles), and `i32`/`u32`
machine arithmetic is modelled on `Int`/`Nat` with explicit wrapping where the
source casts or adds machine integers.
-/

namespace TodoSpec

/-! ## JSON values

A model of the JSON documents handled by `serde_json` in `storage.rs`.
Numbers are modelled as integers, which covers every field the backend
deserializes (`i32`, `u32`, `bool`, `String`). -/

inductive Json where
  | null
  | bool (b : Bool)
  | num (n : Int)
  | str (s : String)
  | arr (elems : List Json)
  | obj (fields : List (String × Json))

/-- Field lookup in a JSON object, with serde's semantics: an absent field is
`none`, a duplicated field is a deserialization error. -/
def getField (fields : List (String × Json)) (k : String) : Except Unit (Option Json) :=
  match fields.filter (fun p => p.1 == k) with
  | [] => .ok none
  | [p] => .ok (some p.2)
  | _ => .error ()

/-- serde deserialization of `Option<i32>` from an optional JSON field:
absent or `null` is `None`; an in-range integer is `Some`; anything else is an
error that fails the whole document. -/
def deOptI32 : Option Json → Except Unit (Option Int)
  | none => .ok none
  | some .null => .ok none
  | some (.num n) => if -2147483648 ≤ n ∧ n ≤ 2147483647 then .ok (some n) else .error ()
  | some _ => .error ()

/-- serde deserialization of `Option<u32>` from an optional JSON field. -/
def deOptU32 : Option Json → Except Unit (Option Nat)
  | none => .ok none
  | some .null => .ok none
  | some (.num n) => if 0 ≤ n ∧ n ≤ 4294967295 then .ok (some n.toNat) else .error ()
  | some _ => .error ()

/-- serde deserialization of `Option<bool>` from an optional JSON field. -/
def deOptBool : Option Json → Except Unit (Option Bool)
  | none => .ok none
  | some .null => .ok none
  | some (.bool b) => .ok (some b)
  | some _ => .error ()

/-- serde deserialization of `Option<String>` from an optional JSON field. -/
def deOptString : Option Json → Except Unit (Option String)
  | none => .ok none
  | some .null => .ok none
  | some (.str s) => .ok (some s)
  | some _ => .error ()

/-! ## storage.rs: data model -/

/-- `WindowConfig` from `storage.rs`: window position and pin preference,
persisted in `window.json` (field `always_on_top` is serialized as
`alwaysOnTop`). -/
structure WindowConfig where
  x : Int
  y : Int
  always_on_top : Bool
deriving DecidableEq, Repr

/-- `WindowConfigRaw` from `storage.rs`: the tolerant deserialization shape in
which every field is optional. -/
structure WindowConfigRaw where
  x : Option Int
  y : Option Int
  always_on_top : Option Bool
deriving DecidableEq, Repr

/-- Deserialize `WindowConfigRaw` from a JSON document (serde: the document
must be an object; unknown fields are ignored). -/
def parseWindowConfigRaw : Json → Except Unit WindowConfigRaw
  | .obj fields => do
    let xf ← getField fields "x"
    let x ← deOptI32 xf
    let yf ← getField fields "y"
    let y ← deOptI32 yf
    let af ← getField fields "alwaysOnTop"
    let a ← deOptBool af
    .ok ⟨x, y, a⟩
  | _ => .error ()

/-- `Todo` from `storage.rs`: one to-do item. `order` is a `u32`, modelled as
a `Nat` kept below `2^32` by the deserializer / index cast. -/
structure Todo where
  id : String
  text : String
  done : Bool
  order : Nat
deriving DecidableEq, Repr

/-- `TodoRaw` from `storage.rs`: the tolerant deserialization shape. -/
structure TodoRaw where
  id : Option String
  text : Option String
  done : Option Bool
  order : Option Nat
deriving DecidableEq, Repr

/-- Deserialize one `TodoRaw` from a JSON value. -/
def parseTodoRaw : Json → Except Unit TodoRaw
  | .obj fields => do
    let idf ← getField fields "id"
    let id ← deOptString idf
    let tf ← getField fields "text"
    let t ← deOptString tf
    let df ← getField fields "done"
    let d ← deOptBool df
    let of ← getField fields "order"
    let o ← deOptU32 of
    .ok ⟨id, t, d, o⟩
  | _ => .error ()

/-- Deserialize `Vec<TodoRaw>` from a JSON document: it must be an array and
every element must deserialize. -/
def parseTodoRawList : Json → Except Unit (List TodoRaw)
  | .arr elems => elems.mapM parseTodoRaw
  | _ => .error ()

/-! ## File states

The state of a persisted file as seen by `std::fs::read_to_string` followed by
`serde_json::from_str`: the file can be missing (`ErrorKind::NotFound`),
unreadable (any other I/O error, whose display string we carry), or present
with either syntactically malformed content or a parsed JSON document. -/

inductive FileState where
  | missing
  | unreadable (msg : String)
  | content (doc : Option Json)

/-- `default_window_config` from `storage.rs`. -/
def default_window_config : WindowConfig := ⟨100, 100, true⟩

/-- `load_window_config` from `storage.rs`, over the state of `window.json`:
missing file or malformed JSON yield the default config, a readable document
folds missing fields to per-field defaults, and any other read error is
surfaced as `Err` (the `Err(e) => return Err(e.to_string())` arm). -/
def load_window_config (fs : FileState) : Except String WindowConfig :=
  match fs with
  | .missing => .ok default_window_config
  | .unreadable msg => .error msg
  | .content none => .ok default_window_config
  | .content (some j) =>
    match parseWindowConfigRaw j with
    | .error _ => .ok default_window_config
    | .ok raw => .ok ⟨raw.x.getD 100, raw.y.getD 100, raw.always_on_top.getD true⟩

/-- A `window.json` document containing exactly the given optional fields
(`"x"`, `"y"`, `"alwaysOnTop"`), used to state the per-field defaulting of
`load_window_config`. -/
def windowJson (xo yo : Option Int) (ao : Option Bool) : Json :=
  .obj ((xo.map fun n => ("x", Json.num n)).toList ++
        (yo.map fun n => ("y", Json.num n)).toList ++
        (ao.map fun b => ("alwaysOnTop", Json.bool b)).toList)

/-! ## UUID generation

Model of `uuid::Uuid::new_v4().to_string()` (external crate): the random
128 bits are a parameter, and `to_string` renders the standard hyphenated
8-4-4-4-12 lowercase-hex form with the version nibble forced to 4 and the
variant bits to `10`. -/

/-- Lowercase hexadecimal digit for `n % 16`. -/
def hexDigit (n : Nat) : Char :=
  if n < 10 then Char.ofNat (48 + n) else Char.ofNat (87 + n % 16)

/-- Fixed-width big-endian lowercase-hex rendering. -/
def hexStr : Nat → Nat → String
  | 0, _ => ""
  | w + 1, v => hexStr w (v / 16) ++ String.singleton (hexDigit (v % 16))

/-- The hyphenated textual form of a version-4 UUID built from random bits
`r`. -/
def uuid_v4_string (r : Nat) : String :=
  hexStr 8 (r % 2^32) ++ "-" ++
  hexStr 4 (r / 2^32 % 2^16) ++ "-" ++
  hexStr 4 (4 * 2^12 + r / 2^48 % 2^12) ++ "-" ++
  hexStr 4 (2^15 + r / 2^60 % 2^14) ++ "-" ++
  hexStr 12 (r / 2^74 % 2^48)

/-- `load_todos` from `storage.rs`, over the state of `todos.json` and the
stream `rng i` of random UUID bits drawn for element `i`: missing file or
malformed JSON yield the empty list, a readable array folds missing fields to
defaults (`id` a fresh UUID, `text` empty, `done` false, `order` the array
index cast `usize as u32`), and any other read error is surfaced as `Err`. -/
def load_todos (fs : FileState) (rng : Nat → Nat) : Except String (List Todo) :=
  match fs with
  | .missing => .ok []
  | .unreadable msg => .error msg
  | .content none => .ok []
  | .content (some j) =>
    match parseTodoRawList j with
    | .error _ => .ok []
    | .ok raws =>
      .ok (raws.enum.map (fun p =>
        { id := p.2.id.getD (uuid_v4_string (rng p.1))
          text := p.2.text.getD ""
          done := p.2.done.getD false
          order := p.2.order.getD (p.1 % 4294967296) }))

/-! ## autostart.rs: path normalization

`normalize_path` chains Rust's `trim`, `trim_start_matches('"')`,
`trim_end_matches('"')`, `trim`.  `trim_start_matches` / `trim_end_matches`
remove the matching character *repeatedly*, so every leading and trailing
quote goes, not just one layer. -/

/-- Remove from the end of a list while the predicate holds (Rust
`trim_end_matches` / the trailing half of `trim`). -/
def dropEndWhile (p : Char → Bool) (l : List Char) : List Char :=
  (l.reverse.dropWhile p).reverse

/-- Rust `str::trim` on a character list. -/
def trimChars (l : List Char) : List Char :=
  dropEndWhile Char.isWhitespace (l.dropWhile Char.isWhitespace)

/-- List-level body of `normalize_path`. -/
def normalizeChars (l : List Char) : List Char :=
  trimChars (dropEndWhile (· == '"') ((trimChars l).dropWhile (· == '"')))

/-- `normalize_path` from `autostart.rs`: trim whitespace, strip leading
quotes, strip trailing quotes, trim again. -/
def normalize_path (s : String) : String :=
  (normalizeChars s.toList).asString

/-- `is_autostart_enabled_impl` from `autostart.rs`, over the value stored in
the registry under `"desktop-todolist"` (`none` models an absent value, which
`unwrap_or_default()` turns into the empty string) and the current executable
path. -/
def is_autostart_enabled_impl (stored : Option String) (exe : String) : Bool :=
  let current := stored.getD ""
  let normalized_current := normalize_path current
  let normalized_exe := normalize_path exe
  !normalized_current.isEmpty && normalized_current == normalized_exe

/-! ## autostart.rs: set_autostart_impl

The registry value under the `Run` key is modelled as `Option String`; the
`std::io::Error` values produced by `winreg` carry their `ErrorKind`, their
`raw_os_error()` code and their display string.  Transient failures of the
set/delete operation are injected by an oracle giving, per attempt index, the
forced error (or `none` for the operation to take its normal effect). -/

/-- The subset of `std::io::ErrorKind` the code inspects. -/
inductive ErrKind where
  | notFound
  | permissionDenied
  | other
deriving DecidableEq, Repr

/-- A `std::io::Error` as observed by `autostart.rs`. -/
structure IoErr where
  kind : ErrKind
  code : Option Int
  display : String
deriving DecidableEq, Repr

/-- `RegKey::set_value` on the modelled store: overwrites the value. -/
def reg_set_value (_st : Option String) (v : String) : Except IoErr Unit × Option String :=
  (.ok (), some v)

/-- `RegKey::delete_value` on the modelled store: deleting an absent value
fails with `ErrorKind::NotFound` (OS error 2). -/
def reg_delete_value (st : Option String) : Except IoErr Unit × Option String :=
  match st with
  | none => (.error ⟨.notFound, some 2, "系统找不到指定的文件。 (os error 2)"⟩, none)
  | some _ => (.ok (), none)

/-- One attempt's raw registry operation, with a forced failure from the
oracle taking precedence (the store is then untouched). -/
def attempt_op (enabled : Bool) (value : String) (st : Option String)
    (forced : Option IoErr) : Except IoErr Unit × Option String :=
  match forced with
  | some e => (.error e, st)
  | none => if enabled then reg_set_value st value else reg_delete_value st

/-- One attempt's `result` as computed by lines 66–80 of `autostart.rs`: for
`enabled == false` a `NotFound` delete failure is swallowed into `Ok(())`. -/
def attempt_result (enabled : Bool) (value : String) (st : Option String)
    (forced : Option IoErr) : Except IoErr Unit × Option String :=
  let r := attempt_op enabled value st forced
  if enabled then r
  else
    match r.1 with
    | .ok _ => (.ok (), r.2)
    | .error e => if e.kind = .notFound then (.ok (), r.2) else (.error e, r.2)

/-- `MAX_RETRIES` from `autostart.rs`. -/
def MAX_RETRIES : Nat := 3

/-- `RETRY_DELAY_MS` from `autostart.rs`. -/
def RETRY_DELAY_MS : Nat := 100

/-- The constant prefix of both failure messages
(`写入开机启动项失败: {}`). -/
def write_fail_head : String := "写入开机启动项失败: "

/-- The guidance appended to the final permission-class (OS error 5)
failure message. -/
def perm_suffix : String :=
  "。\n\n可能的原因：\n1. 权限不足 - 请尝试以管理员身份运行应用\n2. 防病毒软件阻止 - 请检查防病毒软件设置\n3. 注册表被锁定 - 请稍后重试"

/-- The final error message for a permission-class (`raw_os_error == 5`)
failure on the last attempt. -/
def perm_message (e : IoErr) : String := write_fail_head ++ e.display ++ perm_suffix

/-- The final error message for any other failure on the last attempt. -/
def generic_message (e : IoErr) : String := write_fail_head ++ e.display

deriving instance DecidableEq for Except

/-- Outcome of a `set_autostart_impl` run: the returned result, the final
store contents and the sleeps performed between attempts (ms). -/
structure RunOutcome where
  result : Except String Unit
  store : Option String
  sleeps : List Nat
deriving DecidableEq, Repr

/-- The retry loop of `set_autostart_impl` (lines 63–112), with `fuel`
counting the attempts left out of `MAX_RETRIES`.  On an error with
`raw_os_error == Some(5)` at the last attempt the permission message is
returned, on any other last-attempt error the generic message; earlier
attempts sleep `RETRY_DELAY_MS * (attempt + 1)` and retry.  The `fuel = 0`
case is the unreachable fall-through `Err` after the `for` loop. -/
def retry_go (enabled : Bool) (value : String) (oracle : Nat → Option IoErr) :
    Nat → Nat → Option String → Option IoErr → List Nat → RunOutcome
  | 0, _, st, last, sleeps =>
    ⟨.error (match last with
      | some e => generic_message e
      | none => write_fail_head), st, sleeps⟩
  | fuel + 1, attempt, st, _, sleeps =>
    let r := attempt_result enabled value st (oracle attempt)
    match r.1 with
    | .ok _ => ⟨.ok (), r.2, sleeps⟩
    | .error e =>
      if e.code = some 5 then
        if attempt < MAX_RETRIES - 1 then
          retry_go enabled value oracle fuel (attempt + 1) r.2 (some e)
            (sleeps ++ [RETRY_DELAY_MS * (attempt + 1)])
        else ⟨.error (perm_message e), r.2, sleeps⟩
      else
        if attempt < MAX_RETRIES - 1 then
          retry_go enabled value oracle fuel (attempt + 1) r.2 (some e)
            (sleeps ++ [RETRY_DELAY_MS * (attempt + 1)])
        else ⟨.error (generic_message e), r.2, sleeps⟩

/-- `set_autostart_impl` from `autostart.rs`, starting the retry loop at
attempt 0 on the given store state (the exe-path resolution and the opening
of the `Run` key are assumed to have succeeded; `value` is the quoted-if-
spaced exe path the code computed). -/
def set_autostart_impl (enabled : Bool) (value : String)
    (oracle : Nat → Option IoErr) (st : Option String) : RunOutcome :=
  retry_go enabled value oracle MAX_RETRIES 0 st none []

/-- An oracle injecting no transient failures. -/
def clean_oracle : Nat → Option IoErr := fun _ => none

/-- Substring presence on character lists (used to state that the surfaced
permission message carries its actionable guidance). -/
def hasSeg : List Char → List Char → Bool
  | _, [] => true
  | [], _ :: _ => false
  | a :: rest, b :: pat => List.isPrefixOf (b :: pat) (a :: rest) || hasSeg rest (b :: pat)

/-- Substring presence on strings. -/
def containsSub (s pat : String) : Bool := hasSeg s.toList pat.toList

/-! ## lib.rs: position validation

`is_position_valid_on_monitor` computes on `i32`/`u32`; release-build
semantics are modelled exactly: `u32 as i32` reinterprets modulo `2^32` and
`i32` addition wraps modulo `2^32`. -/

/-- Normalize an integer into the `i32` value range, wrapping modulo
`2^32`. -/
def wrap32 (n : Int) : Int := (n + 2147483648) % 4294967296 - 2147483648

/-- The Rust cast `w as i32` for a `u32` value `w`. -/
def u32_as_i32 (w : Nat) : Int := wrap32 w

/-- Wrapping `i32` addition. -/
def i32_add (a b : Int) : Int := wrap32 (a + b)

/-- `is_position_valid_on_monitor` from `lib.rs`: half-open overlap test of
the rectangle `(x, y, width, height)` against the monitor rectangle. -/
def is_position_valid_on_monitor (x y : Int) (width height : Nat)
    (mon_pos : Int × Int) (mon_size : Nat × Nat) : Bool :=
  let mx := mon_pos.1
  let my := mon_pos.2
  let mw := mon_size.1
  let mh := mon_size.2
  let x_overlap := decide (x < i32_add mx (u32_as_i32 mw)) &&
    decide (i32_add x (u32_as_i32 width) > mx)
  let y_overlap := decide (y < i32_add my (u32_as_i32 mh)) &&
    decide (i32_add y (u32_as_i32 height) > my)
  x_overlap && y_overlap

/-- The position-validity decision in `run`'s setup closure (lines 113–137 of
`lib.rs`): against the primary monitor when one is available, otherwise the
coarse `[-32768, 32767]` range check on both coordinates. -/
def setup_position_valid (x y : Int) (width height : Nat)
    (monitor : Option ((Int × Int) × (Nat × Nat))) : Bool :=
  match monitor with
  | some m => is_position_valid_on_monitor x y width height m.1 m.2
  | none =>
    decide (x ≥ -32768) && decide (x ≤ 32767) && decide (y ≥ -32768) && decide (y ≤ 32767)

/-! ## lib.rs: set_always_on_top

The live window is modelled by the outcome of its `set_always_on_top` call
and of its `outer_position()` query; the persisted `window.json` state is a
`FileState` (re-read through `load_window_config` on fallback), and the
`save_window_config` outcome is a function of the config written.  The second
component of the result collects the write attempts made. -/

/-- A live main window as observed by the `set_always_on_top` command. -/
structure LiveWindow where
  set_aot_result : Except String Unit
  outer_position : Option (Int × Int)

/-- The `set_always_on_top` Tauri command from `lib.rs` (lines 50–74):
apply the flag, then persist the current position (live read, else last
persisted config, else `(100, 100)`) merged with the flag in one synchronous
`save_window_config` call. -/
def set_always_on_top_cmd (win : Option LiveWindow) (enabled : Bool)
    (fs : FileState) (save : WindowConfig → Except String Unit) :
    Except String Unit × List WindowConfig :=
  match win with
  | none => (.error "主窗口不存在", [])
  | some w =>
    match w.set_aot_result with
    | .error e => (.error e, [])
    | .ok _ =>
      let p :=
        match w.outer_position with
        | some q => q
        | none =>
          match load_window_config fs with
          | .ok c => (c.x, c.y)
          | .error _ => (100, 100)
      let config : WindowConfig := ⟨p.1, p.2, enabled⟩
      match save config with
      | .error e => (.error e, [config])
      | .ok _ => (.ok (), [config])

/-! ## lib.rs: the debounce worker

The worker thread (lines 147–170) blocks on `rx.recv()`, then repeatedly
sleeps 300 ms, consuming one queued `Moved` event per sleep via `try_recv()`,
and once a sleep ends with the queue empty performs one write of the live
geometry and pin state queried at that moment on the main thread.  Events are
modelled by their arrival times (ms, in delivery order); the live window is a
time-indexed environment. -/

/-- The live-window environment the worker's write closure queries: outer
position and pin state at a given time (each `none` when the query fails, the
closure then uses `(100, 100)` / `true`), and whether
`get_webview_window("main")` still finds the window. -/
structure DebounceEnv where
  outerPos : Nat → Option (Int × Int)
  isAot : Nat → Option Bool
  winAlive : Nat → Bool

/-- The config the worker writes at time `t`: live geometry and pin state
queried fresh at `t`. -/
def freshConfig (env : DebounceEnv) (t : Nat) : WindowConfig :=
  ⟨((env.outerPos t).getD (100, 100)).1, ((env.outerPos t).getD (100, 100)).2,
    (env.isAot t).getD true⟩

/-- The write the run-on-main-thread closure performs at time `t` (none when
the main window is gone). -/
def writeAt (env : DebounceEnv) (t : Nat) : List (Nat × WindowConfig) :=
  if env.winAlive t then [(t, freshConfig env t)] else []

/-- The draining inner loop: starting a sleep at time `t` with pending event
arrival times `evs`, sleep 300 ms; if an event has arrived by then consume it
and sleep again, else exit.  Returns the exit time and the events left for
the outer loop. -/
def drain : Nat → List Nat → Nat × List Nat
  | t, [] => (t + 300, [])
  | t, e :: rest => if e ≤ t + 300 then drain (t + 300) rest else (t + 300, e :: rest)

/-- The worker's outer loop from time `t`: block for the next event, drain,
write, repeat. -/
def workerFrom (env : DebounceEnv) : Nat → List Nat → List (Nat × WindowConfig)
  | _, [] => []
  | t, e :: rest =>
    match h : drain (max t e) rest with
    | (w, remaining) => writeAt env w ++ workerFrom env w remaining
termination_by _ evs => evs.length
decreasing_by
  have hlen : ∀ (t : Nat) (l : List Nat), (drain t l).2.length ≤ l.length := by
    intro t l
    induction l generalizing t with
    | nil => simp [drain]
    | cons a as ih =>
      by_cases hc : a ≤ t + 300
      · simpa [drain, hc] using Nat.le_succ_of_le (ih (t + 300))
      · simp [drain, hc]
  have := hlen (max t e) rest
  rw [h] at this
  simpa using Nat.lt_succ_of_le this

/-- A burst: each event follows its predecessor within the 300 ms quiescence
window. -/
def gapsOk : List Nat → Bool
  | [] => true
  | [_] => true
  | a :: b :: rest => b ≤ a + 300 && gapsOk (b :: rest)

/-- `consumesAll t evs`: every pending event is consumed by the chain of
sleeps starting at `t`. -/
def consumesAll : Nat → List Nat → Bool
  | _, [] => true
  | t, e :: rest => e ≤ t + 300 && consumesAll (t + 300) rest

/-- Consumption is monotone in the sleep-start time. -/
theorem consumesAll_mono {t t' : Nat} (l : List Nat) (h : t ≤ t')
    (hc : consumesAll t l = true) : consumesAll t' l = true := by
  induction l generalizing t t' with
  | nil => simp [consumesAll]
  | cons e rest ih =>
    simp only [consumesAll, Bool.and_eq_true, decide_eq_true_eq] at hc ⊢
    exact ⟨Nat.le_trans hc.1 (by omega), ih (by omega) hc.2⟩

/-- A burst starting at `e` is fully consumed by the drain chain starting at
`e`. -/
theorem gapsOk_consumesAll (e : Nat) (rest : List Nat)
    (h : gapsOk (e :: rest) = true) : consumesAll e rest = true := by
  induction rest generalizing e with
  | nil => simp [consumesAll]
  | cons b rs ih =>
    simp only [gapsOk, Bool.and_eq_true, decide_eq_true_eq] at h
    simp only [consumesAll, Bool.and_eq_true, decide_eq_true_eq]
    exact ⟨h.1, consumesAll_mono rs h.1 (ih b h.2)⟩

/-- When every pending event is consumed, `drain` exits at
`t + 300 * (n + 1)` with nothing left. -/
theorem drain_of_consumesAll (t : Nat) (evs : List Nat)
    (h : consumesAll t evs = true) :
    drain t evs = (t + 300 * (evs.length + 1), []) := by
  induction evs generalizing t with
  | nil => simp [drain]
  | cons e rest ih =>
    simp only [consumesAll, Bool.and_eq_true, decide_eq_true_eq] at h
    have h2 := ih (t + 300) h.2
    show (if e ≤ t + 300 then drain (t + 300) rest else (t + 300, e :: rest)) = _
    rw [if_pos h.1, h2, Prod.mk.injEq]
    refine ⟨?_, rfl⟩
    simp only [List.length_cons]
    omega

/-- Every consumed event arrived no later than `t + 300 * n`. -/
theorem consumesAll_bound (t : Nat) (l : List Nat)
    (h : consumesAll t l = true) : ∀ x ∈ l, x ≤ t + 300 * l.length := by
  induction l generalizing t with
  | nil => simp
  | cons e rest ih =>
    simp only [consumesAll, Bool.and_eq_true, decide_eq_true_eq] at h
    intro x hx
    rcases List.mem_cons.mp hx with rfl | hx
    · simp only [List.length_cons]; omega
    · have := ih (t + 300) h.2 x hx
      simp only [List.length_cons]; omega

/-- Bind on a successful `Except` steps to the continuation. -/
theorem ebind_ok {ε α β : Type} (a : α) (f : α → Except ε β) :
    (Except.ok a >>= f) = f a := rfl

/-- Bind on a failed `Except` propagates the error. -/
theorem ebind_error {ε α β : Type} (e : ε) (f : α → Except ε β) :
    ((Except.error e : Except ε α) >>= f) = Except.error e := rfl

/-- In-range `i32` literals deserialize. -/
theorem deOptI32_num (n : Int) (h1 : -2147483648 ≤ n) (h2 : n ≤ 2147483647) :
    deOptI32 (some (.num n)) = .ok (some n) := by
  show (if -2147483648 ≤ n ∧ n ≤ 2147483647 then Except.ok (some n) else .error ()) = .ok (some n)
  exact if_pos ⟨h1, h2⟩

/-- C1 counterexample: an unreadable `window.json` (a read failure other than
`NotFound`, e.g. a permission error) does **not** fold to the hardcoded
default — `load_window_config` surfaces the error. -/
theorem C1_counterexample :
    load_window_config (FileState.unreadable "拒绝访问。 (os error 5)") =
        Except.error "拒绝访问。 (os error 5)"
      ∧ load_window_config (FileState.unreadable "拒绝访问。 (os error 5)") ≠
        Except.ok default_window_config := by
  exact ⟨rfl, by decide⟩

/-- C1 (amended): `load_window_config` folds a missing file or malformed JSON
content to the hardcoded default `{x := 100, y := 100, always_on_top := true}`,
and folds each individually missing field of a well-formed document to its
per-field default — in particular `x = 5` alone yields
`{x := 5, y := 100, always_on_top := true}`; an unreadable file, however,
surfaces the read error instead of folding to the default. -/
theorem C1_load_window_config_defaults (xo yo : Option Int) (ao : Option Bool)
    (hx : ∀ n ∈ xo, -2147483648 ≤ n ∧ n ≤ 2147483647)
    (hy : ∀ n ∈ yo, -2147483648 ≤ n ∧ n ≤ 2147483647) :
    load_window_config (.content (some (windowJson xo yo ao))) =
        .ok ⟨xo.getD 100, yo.getD 100, ao.getD true⟩
      ∧ load_window_config .missing = .ok default_window_config
      ∧ load_window_config (.content none) = .ok default_window_config
      ∧ load_window_config (.content (some (.obj [("x", .num 5)]))) = .ok ⟨5, 100, true⟩ := by
  refine ⟨?_, rfl, rfl, by decide⟩
  rcases xo with _ | n <;> rcases yo with _ | m <;> rcases ao with _ | b <;>
    first
      | rfl
      | simp [load_window_config, windowJson, parseWindowConfigRaw, getField,
          deOptI32, deOptBool, ebind_ok, eq_true (hx _ rfl), eq_true (hy _ rfl)]
      | simp [load_window_config, windowJson, parseWindowConfigRaw, getField,
          deOptI32, deOptBool, ebind_ok, eq_true (hx _ rfl)]
      | simp [load_window_config, windowJson, parseWindowConfigRaw, getField,
          deOptI32, deOptBool, ebind_ok, eq_true (hy _ rfl)]

/-- Witness for `C1_load_window_config_defaults`: a document holding only
`x = 5` loads as `{x := 5, y := 100, always_on_top := true}`. -/
theorem C1_witness :
    load_window_config (.content (some (windowJson (some 5) none none))) =
      .ok ⟨5, 100, true⟩ :=
  (C1_load_window_config_defaults (some 5) none none
    (by intro n hn; cases hn; constructor <;> decide)
    (by intro n hn; cases hn)).1

/-- C4: `is_autostart_enabled_impl` returns `false` when the store has no
value under the fixed name (absence read back as the empty string), and
returns `true` exactly when the normalized stored string is non-empty and
equal to the normalized current executable path (equality already forces the
exe side to be non-empty too). -/
theorem C4_is_autostart_enabled (stored : Option String) (exe : String) :
    is_autostart_enabled_impl none exe = false
    ∧ (is_autostart_enabled_impl stored exe = true ↔
        normalize_path (stored.getD "") ≠ "" ∧
        normalize_path (stored.getD "") = normalize_path exe) := by
  constructor
  · rfl
  · simp only [is_autostart_enabled_impl, Bool.and_eq_true, beq_iff_eq,
      Bool.not_eq_true']
    constructor
    · intro h
      exact ⟨fun he => by rw [he] at h; exact absurd h.1 (by decide), h.2⟩
    · intro h
      refine ⟨?_, h.2⟩
      rcases hb : (normalize_path (stored.getD "")).isEmpty with _ | _
      · rfl
      · exact absurd ((String.isEmpty_iff _).mp hb) h.1

/-- C7: disabling autostart with no transient failures succeeds for every
prior store state — in particular when no value exists, where the `NotFound`
delete error is swallowed — leaves the store without the entry, and is
idempotent. -/
theorem C7_disable_idempotent (value : String) (st : Option String) :
    (set_autostart_impl false value clean_oracle none).result = .ok ()
    ∧ (set_autostart_impl false value clean_oracle st).result = .ok ()
    ∧ (set_autostart_impl false value clean_oracle st).store = none
    ∧ set_autostart_impl false value clean_oracle
        ((set_autostart_impl false value clean_oracle st).store) =
      set_autostart_impl false value clean_oracle st := by
  rcases st with _ | v <;> exact ⟨rfl, rfl, rfl, rfl⟩

/-- Fixed-width hex strings have their stated width. -/
theorem hexStr_length (w : Nat) : ∀ v, (hexStr w v).length = w := by
  induction w with
  | zero => intro v; rfl
  | succ w ih =>
    intro v
    simp [hexStr, String.length_append, ih]

/-- A rendered v4 UUID is 36 characters long. -/
theorem uuid_v4_string_length (r : Nat) : (uuid_v4_string r).length = 36 := by
  have hd : ("-" : String).length = 1 := rfl
  simp [uuid_v4_string, String.length_append, hexStr_length, hd]

/-- A rendered v4 UUID is never the empty string. -/
theorem uuid_v4_string_ne_empty (r : Nat) : uuid_v4_string r ≠ "" := by
  intro h
  have := uuid_v4_string_length r
  rw [h] at this
  simp at this

/-- The empty JSON object parses to the all-fields-absent raw to-do. -/
theorem parseTodoRaw_empty : parseTodoRaw (.obj []) = .ok ⟨none, none, none, none⟩ := rfl

/-- A replicated list of empty objects deserializes elementwise. -/
theorem mapM_parseTodoRaw_replicate (n : Nat) :
    (List.replicate n (Json.obj [])).mapM parseTodoRaw =
      .ok (List.replicate n ⟨none, none, none, none⟩) := by
  induction n with
  | zero => rfl
  | succ n ih =>
    simp only [List.replicate_succ, List.mapM_cons, parseTodoRaw_empty, ih, ebind_ok]
    rfl

/-- Enumerating a replicated list and mapping is mapping over the index
range. -/
theorem enumFrom_replicate_map (g : Nat × TodoRaw → Todo) (r : TodoRaw) :
    ∀ (n k : Nat), ((List.replicate n r).enumFrom k).map g =
      (List.range' k n).map (fun i => g (i, r)) := by
  intro n
  induction n with
  | zero => intro k; rfl
  | succ n ih =>
    intro k
    simp only [List.replicate_succ, List.enumFrom_cons, List.range'_succ, List.map_cons]
    rw [ih]

/-- C8: `load_todos` returns the empty list (never an error) on a missing
file or malformed JSON; on a well-formed array each element's missing fields
fold to defaults — a fresh non-empty UUID `id`, empty `text`, `done = false`
and `order` equal to the element's index — so `[{"text":"a"}]` yields exactly
one item with a non-empty generated id, text `"a"`, not done, order 0. -/
theorem C8_load_todos (rng : Nat → Nat) (n : Nat) :
    load_todos .missing rng = .ok []
    ∧ load_todos (.content none) rng = .ok []
    ∧ load_todos (.content (some (.arr [.obj [("text", .str "a")]]))) rng =
        .ok [⟨uuid_v4_string (rng 0), "a", false, 0⟩]
    ∧ uuid_v4_string (rng 0) ≠ ""
    ∧ load_todos (.content (some (.arr (List.replicate n (.obj []))))) rng =
        .ok ((List.range n).map fun i =>
          ⟨uuid_v4_string (rng i), "", false, i % 4294967296⟩) := by
  refine ⟨rfl, rfl, rfl, uuid_v4_string_ne_empty _, ?_⟩
  simp only [load_todos, parseTodoRawList, mapM_parseTodoRaw_replicate, List.enum,
    List.range_eq_range']
  rw [enumFrom_replicate_map _ _ n 0]
  simp

/-- Whatever survives `dropWhile p` at the head falsifies `p`. -/
theorem head?_dropWhile_false (p : Char → Bool) (l : List Char) (c : Char)
    (h : (l.dropWhile p).head? = some c) : p c = false := by
  induction l with
  | nil => simp at h
  | cons a t ih =>
    by_cases ha : p a
    · rw [List.dropWhile_cons_of_pos ha] at h
      exact ih h
    · rw [List.dropWhile_cons_of_neg ha] at h
      simp only [List.head?_cons, Option.some.injEq] at h
      subst h
      simpa using ha

/-- `dropWhile` fixes a list whose head already falsifies `p`. -/
theorem dropWhile_eq_self_of_head (p : Char → Bool) (l : List Char)
    (h : ∀ c, l.head? = some c → p c = false) : l.dropWhile p = l := by
  cases l with
  | nil => rfl
  | cons a t => exact List.dropWhile_cons_of_neg (by simp [h a rfl])

/-- Whatever survives `dropEndWhile p` at the tail falsifies `p`. -/
theorem getLast?_dropEndWhile_false (p : Char → Bool) (l : List Char) (c : Char)
    (h : (dropEndWhile p l).getLast? = some c) : p c = false := by
  rw [dropEndWhile, List.getLast?_reverse] at h
  exact head?_dropWhile_false p l.reverse c h

/-- `dropEndWhile` fixes a list whose last element already falsifies `p`. -/
theorem dropEndWhile_eq_self_of_last (p : Char → Bool) (l : List Char)
    (h : ∀ c, l.getLast? = some c → p c = false) : dropEndWhile p l = l := by
  rw [dropEndWhile, dropWhile_eq_self_of_head p l.reverse, List.reverse_reverse]
  intro c hc
  rw [List.head?_reverse] at hc
  exact h c hc

/-- `dropEndWhile` only removes a suffix, so a surviving head was the original
head. -/
theorem head?_dropEndWhile (p : Char → Bool) (l : List Char) (c : Char)
    (h : (dropEndWhile p l).head? = some c) : l.head? = some c := by
  have hdec : dropEndWhile p l ++ (l.reverse.takeWhile p).reverse = l := by
    rw [dropEndWhile, ← List.reverse_append, List.takeWhile_append_dropWhile,
      List.reverse_reverse]
  calc l.head? = (dropEndWhile p l ++ (l.reverse.takeWhile p).reverse).head? := by rw [hdec]
    _ = some c := by rw [List.head?_append, h]; rfl

/-- `dropWhile` only removes a prefix, so a surviving last element was the
original last element. -/
theorem getLast?_dropWhile (p : Char → Bool) (l : List Char) (c : Char)
    (h : (l.dropWhile p).getLast? = some c) : l.getLast? = some c := by
  calc l.getLast? = (l.takeWhile p ++ l.dropWhile p).getLast? := by
        rw [List.takeWhile_append_dropWhile]
    _ = some c := by rw [List.getLast?_append, h]; rfl

/-- The head of a trimmed-and-quote-stripped list is not whitespace. -/
theorem normalizeChars_head_not_ws (l : List Char) (c : Char)
    (h : (normalizeChars l).head? = some c) : c.isWhitespace = false := by
  rw [normalizeChars, trimChars] at h
  exact head?_dropWhile_false _ _ c (head?_dropEndWhile _ _ c h)

/-- The last element of a trimmed-and-quote-stripped list is not
whitespace. -/
theorem normalizeChars_last_not_ws (l : List Char) (c : Char)
    (h : (normalizeChars l).getLast? = some c) : c.isWhitespace = false := by
  rw [normalizeChars, trimChars] at h
  exact getLast?_dropEndWhile_false _ _ c h

/-- `normalizeChars` fixes any list whose ends carry neither whitespace nor a
double-quote. -/
theorem normalizeChars_fix (m : List Char)
    (hh : ∀ c, m.head? = some c → c.isWhitespace = false ∧ (c == '"') = false)
    (hl : ∀ c, m.getLast? = some c → c.isWhitespace = false ∧ (c == '"') = false) :
    normalizeChars m = m := by
  have htrim : trimChars m = m := by
    rw [trimChars, dropWhile_eq_self_of_head _ _ (fun c hc => (hh c hc).1)]
    exact dropEndWhile_eq_self_of_last _ _ (fun c hc => (hl c hc).1)
  rw [normalizeChars, htrim,
    dropWhile_eq_self_of_head _ _ (fun c hc => (hh c hc).2),
    dropEndWhile_eq_self_of_last _ _ (fun c hc => (hl c hc).2), htrim]

/-- C5 counterexample: `normalize_path` is **not** idempotent — on the input
`"" "a` (quote, quote, space, quote, `a`) one pass yields `"a` and a second
pass strips the now-leading quote down to `a`. -/
theorem C5_counterexample :
    normalize_path (normalize_path "\"\" \"a") ≠ normalize_path "\"\" \"a"
      ∧ normalize_path "\"\" \"a" = "\"a"
      ∧ normalize_path (normalize_path "\"\" \"a") = "a" := by
  refine ⟨by decide, by decide, by decide⟩

/-- C5 (amended): `normalize_path` strips surrounding whitespace and **all**
leading and trailing double-quotes (not exactly one layer: `""x""` becomes
`x`), and it is idempotent exactly on those inputs whose normalized form does
not itself begin or end with a double-quote — a second pass can strip further
quotes exposed by the inner whitespace trim, as the counterexample shows. -/
theorem C5_normalize_path (p : String)
    (hh : (normalize_path p).toList.head? ≠ some '"')
    (hl : (normalize_path p).toList.getLast? ≠ some '"') :
    normalize_path (normalize_path p) = normalize_path p
      ∧ normalize_path "\"\"x\"\"" = "x" := by
  refine ⟨?_, by decide⟩
  have hto : ∀ l : List Char, (List.asString l).toList = l := fun _ => rfl
  show (normalizeChars (normalize_path p).toList).asString = normalize_path p
  have hm : (normalize_path p).toList = normalizeChars p.toList := by
    rw [normalize_path, hto]
  rw [hm, normalizeChars_fix]
  · rfl
  · intro c hc
    refine ⟨normalizeChars_head_not_ws _ c hc, ?_⟩
    rw [← hm] at hc
    have : c ≠ '"' := fun hq => hh (hq ▸ hc)
    simpa using this
  · intro c hc
    refine ⟨normalizeChars_last_not_ws _ c hc, ?_⟩
    rw [← hm] at hc
    have : c ≠ '"' := fun hq => hl (hq ▸ hc)
    simpa using this

/-- Witness for `C5_normalize_path`: `"abc"` normalizes to `abc`, whose ends
are quote-free, and a second normalization changes nothing. -/
theorem C5_witness :
    normalize_path (normalize_path "\"abc\"") = normalize_path "\"abc\"" :=
  (C5_normalize_path "\"abc\"" (by decide) (by decide)).1

/-- C2: for a finite burst of move events (consecutive arrivals within the
300 ms quiescence window), the debounce worker keeps re-sleeping while events
keep arriving and then performs exactly one write, at a time at least 300 ms
after every event of the burst, whose content is the live geometry and pinned
state queried fresh at write time (on the main thread owning the window
handle), not any event payload. -/
theorem C2_debounce_single_write (env : DebounceEnv) (t e : Nat) (rest : List Nat)
    (hstart : t ≤ e) (hburst : gapsOk (e :: rest) = true)
    (halive : env.winAlive (e + 300 * (rest.length + 1)) = true) :
    workerFrom env t (e :: rest) =
      [(e + 300 * (rest.length + 1), freshConfig env (e + 300 * (rest.length + 1)))]
    ∧ ∀ l ∈ e :: rest, l + 300 ≤ e + 300 * (rest.length + 1) := by
  have hcons := gapsOk_consumesAll e rest hburst
  have hdrain := drain_of_consumesAll e rest hcons
  have hmax : max t e = e := Nat.max_eq_right hstart
  constructor
  · rw [workerFrom, hmax]
    split
    next w remaining heq =>
      rw [hdrain] at heq
      cases heq
      rw [workerFrom]
      simp [writeAt, halive]
  · intro l hl
    rcases List.mem_cons.mp hl with rfl | hmem
    · omega
    · have hb := consumesAll_bound e rest hcons l hmem
      omega

/-- Witness for `C2_debounce_single_write`: events at 0, 100 and 150 ms (the
spec's example burst) produce exactly one write, at 900 ms — more than
300 ms after the last event — carrying the geometry queried at 900 ms. -/
theorem C2_witness :
    workerFrom
      ⟨fun t => some ((t : Int), 7), fun _ => some false, fun _ => true⟩
      0 [0, 100, 150] = [(900, ⟨900, 7, false⟩)] := by
  have h := C2_debounce_single_write
    ⟨fun t => some ((t : Int), 7), fun _ => some false, fun _ => true⟩
    0 0 [100, 150] (by decide) (by decide) rfl
  rw [h.1]
  rfl

/-- A forced failure whose kind is not `NotFound` surfaces as that attempt's
error, leaving the store untouched, for either direction of the toggle. -/
theorem attempt_result_forced (enabled : Bool) (value : String) (st : Option String)
    (e : IoErr) (hk : e.kind ≠ .notFound) :
    attempt_result enabled value st (some e) = (.error e, st) := by
  cases enabled <;> simp [attempt_result, attempt_op, hk]

/-- With no forced failure, every attempt succeeds at once: enabling stores
the value, disabling deletes it (an absent value's `NotFound` is swallowed). -/
theorem attempt_result_clean (enabled : Bool) (value : String) (st : Option String) :
    attempt_result enabled value st none =
      (.ok (), if enabled then some value else none) := by
  cases enabled <;> rcases st with _ | v <;> rfl

/-- C3: when the registry operation fails on all three attempts (with errors
of any non-`NotFound` kind), `set_autostart_impl` performs exactly
`MAX_RETRIES = 3` attempts with sleeps of 100 ms and 200 ms between them
(100 ms × attempt number); a final-attempt error with OS code 5 surfaces the
permission message — the generic message plus actionable guidance naming
elevated privileges and security software — while any other final error
surfaces the generic message, and the two messages differ; with no failures
the first attempt succeeds with no sleeps. -/
theorem C3_set_autostart_retry (enabled : Bool) (value : String)
    (oracle : Nat → Option IoErr) (st : Option String) (e0 e1 e2 : IoErr)
    (h0 : oracle 0 = some e0) (h1 : oracle 1 = some e1) (h2 : oracle 2 = some e2)
    (hk0 : e0.kind ≠ .notFound) (hk1 : e1.kind ≠ .notFound) (hk2 : e2.kind ≠ .notFound) :
    (set_autostart_impl enabled value oracle st).sleeps = [100, 200]
    ∧ (e2.code = some 5 →
        (set_autostart_impl enabled value oracle st).result = .error (perm_message e2))
    ∧ (e2.code ≠ some 5 →
        (set_autostart_impl enabled value oracle st).result = .error (generic_message e2))
    ∧ perm_message e2 = generic_message e2 ++ perm_suffix
    ∧ perm_message e2 ≠ generic_message e2
    ∧ containsSub perm_suffix "以管理员身份运行" = true
    ∧ containsSub perm_suffix "防病毒软件" = true
    ∧ (set_autostart_impl enabled value clean_oracle st).result = .ok ()
    ∧ (set_autostart_impl enabled value clean_oracle st).sleeps = [] := by
  have hrun : set_autostart_impl enabled value oracle st =
      ⟨if e2.code = some 5 then .error (perm_message e2) else .error (generic_message e2),
        st, [100, 200]⟩ := by
    rw [set_autostart_impl, MAX_RETRIES]
    rw [retry_go, h0, attempt_result_forced enabled value st e0 hk0]
    simp only [ite_self, MAX_RETRIES, RETRY_DELAY_MS, reduceIte]
    rw [retry_go, h1, attempt_result_forced enabled value st e1 hk1]
    simp only [ite_self, MAX_RETRIES, RETRY_DELAY_MS, reduceIte]
    rw [retry_go, h2, attempt_result_forced enabled value st e2 hk2]
    simp only [MAX_RETRIES, RETRY_DELAY_MS, reduceIte]
    by_cases h5 : e2.code = some 5 <;> simp [h5]
  have hclean : set_autostart_impl enabled value clean_oracle st =
      ⟨.ok (), if enabled then some value else none, []⟩ := by
    rw [set_autostart_impl, MAX_RETRIES, retry_go]
    rw [show clean_oracle 0 = none from rfl, attempt_result_clean]
  have hsuffix_pos : 0 < perm_suffix.length := by decide
  refine ⟨by rw [hrun], ?_, ?_, ?_, ?_, by decide, by decide, by rw [hclean], by rw [hclean]⟩
  · intro h5; rw [hrun]; simp [h5]
  · intro h5; rw [hrun]; simp [h5]
  · simp [perm_message, generic_message, String.append_assoc]
  · intro h
    have hlen := congrArg String.length h
    simp only [perm_message, generic_message, String.length_append] at hlen
    omega

/-- Witness for `C3_set_autostart_retry`: an access-denied error (OS code 5)
on every attempt yields two backoff sleeps and the permission-guidance
message. -/
theorem C3_witness :
    (set_autostart_impl true "app"
        (fun _ => some ⟨.permissionDenied, some 5, "拒绝访问。 (os error 5)"⟩)
        none).sleeps = [100, 200]
    ∧ (set_autostart_impl true "app"
        (fun _ => some ⟨.permissionDenied, some 5, "拒绝访问。 (os error 5)"⟩)
        none).result =
      .error (perm_message ⟨.permissionDenied, some 5, "拒绝访问。 (os error 5)"⟩) := by
  have h := C3_set_autostart_retry true "app"
    (fun _ => some ⟨.permissionDenied, some 5, "拒绝访问。 (os error 5)"⟩) none
    ⟨.permissionDenied, some 5, "拒绝访问。 (os error 5)"⟩
    ⟨.permissionDenied, some 5, "拒绝访问。 (os error 5)"⟩
    ⟨.permissionDenied, some 5, "拒绝访问。 (os error 5)"⟩
    rfl rfl rfl (by decide) (by decide) (by decide)
  exact ⟨h.1, h.2.1 (by decide)⟩

/-- `wrap32` is the identity on the `i32` value range. -/
theorem wrap32_id (n : Int) (h1 : -2147483648 ≤ n) (h2 : n ≤ 2147483647) :
    wrap32 n = n := by
  rw [wrap32]; omega

/-- `wrap32` only depends on its argument modulo `2^32`, so a pre-wrapped
summand can be unwrapped. -/
theorem wrap32_add_wrap32 (a b : Int) : wrap32 (a + wrap32 b) = wrap32 (a + b) := by
  rw [wrap32, wrap32, wrap32]; omega

/-- Under the no-overflow side conditions every cast and addition in
`is_position_valid_on_monitor` keeps its mathematical value, so the function
computes the plain two-axis half-open overlap test. -/
theorem is_position_valid_eq (x y : Int) (width height : Nat) (mx my : Int)
    (mw mh : Nat)
    (hx1 : -2147483648 ≤ x) (hx2 : x ≤ 2147483647)
    (hy1 : -2147483648 ≤ y) (hy2 : y ≤ 2147483647)
    (hmx : -2147483648 ≤ mx) (hmy : -2147483648 ≤ my)
    (hmw : (mw : Int) ≤ 2147483647) (hmh : (mh : Int) ≤ 2147483647)
    (hmxw : mx + mw ≤ 2147483647) (hmyh : my + mh ≤ 2147483647)
    (hxw : x + width ≤ 2147483647) (hyh : y + height ≤ 2147483647) :
    is_position_valid_on_monitor x y width height (mx, my) (mw, mh) =
      decide (x < mx + mw ∧ x + width > mx ∧ y < my + mh ∧ y + height > my) := by
  have hw : (0 : Int) ≤ (width : Int) := Int.ofNat_nonneg width
  have hh : (0 : Int) ≤ (height : Int) := Int.ofNat_nonneg height
  have hw1 : (0 : Int) ≤ (mw : Int) := Int.ofNat_nonneg mw
  have hh1 : (0 : Int) ≤ (mh : Int) := Int.ofNat_nonneg mh
  simp only [is_position_valid_on_monitor, u32_as_i32, i32_add,
    wrap32_add_wrap32,
    wrap32_id (mx + mw) (by omega) hmxw, wrap32_id (my + mh) (by omega) hmyh,
    wrap32_id (x + width) (by omega) hxw, wrap32_id (y + height) (by omega) hyh,
    Bool.decide_and, Bool.and_assoc]

/-- C6: against a monitor, the restored position is accepted exactly by the
half-open two-axis overlap test; with no monitor available, exactly when both
coordinates lie in `[-32768, 32767]`; the spec's examples — a 320×400 window
at the origin against a 1920×1080 monitor at the origin, and the same window
against that monitor moved to `(3000, 3000)` — validate and fail
respectively. -/
theorem C6_position_validation (x y : Int) (width height : Nat) (mx my : Int)
    (mw mh : Nat)
    (hx1 : -2147483648 ≤ x) (hx2 : x ≤ 2147483647)
    (hy1 : -2147483648 ≤ y) (hy2 : y ≤ 2147483647)
    (hmx : -2147483648 ≤ mx) (hmy : -2147483648 ≤ my)
    (hmw : (mw : Int) ≤ 2147483647) (hmh : (mh : Int) ≤ 2147483647)
    (hmxw : mx + mw ≤ 2147483647) (hmyh : my + mh ≤ 2147483647)
    (hxw : x + width ≤ 2147483647) (hyh : y + height ≤ 2147483647) :
    (setup_position_valid x y width height (some ((mx, my), (mw, mh))) =
        decide (x < mx + mw ∧ x + width > mx ∧ y < my + mh ∧ y + height > my))
    ∧ (setup_position_valid x y width height none =
        decide (x ≥ -32768 ∧ x ≤ 32767 ∧ y ≥ -32768 ∧ y ≤ 32767))
    ∧ is_position_valid_on_monitor 0 0 320 400 (0, 0) (1920, 1080) = true
    ∧ is_position_valid_on_monitor 0 0 320 400 (3000, 3000) (1920, 1080) = false := by
  refine ⟨?_, ?_, by decide, by decide⟩
  · exact is_position_valid_eq x y width height mx my mw mh
      hx1 hx2 hy1 hy2 hmx hmy hmw hmh hmxw hmyh hxw hyh
  · simp [setup_position_valid, Bool.and_assoc]

/-- Witness for `C6_position_validation` at the spec's example inputs. -/
theorem C6_witness :
    setup_position_valid 0 0 320 400 (some ((0, 0), (1920, 1080))) = true := by
  have h := (C6_position_validation 0 0 320 400 0 0 1920 1080
    (by decide) (by decide) (by decide) (by decide) (by decide) (by decide)
    (by decide) (by decide) (by decide) (by decide) (by decide) (by decide)).1
  rw [h]
  decide

/-- C10: whenever both monitor size components fit in `i32` and the four
sums fit in `i32`, `is_position_valid_on_monitor` computes exactly the plain
conjunction of the two half-open overlap tests (no wrap changes a value); the
bound is genuine — a monitor width of `2^31` becomes negative under `as i32`,
making the function reject a rectangle the unwrapped test accepts. -/
theorem C10_no_overflow_under_bounds :
    (∀ (x y : Int) (width height : Nat) (mx my : Int) (mw mh : Nat),
      -2147483648 ≤ x → x ≤ 2147483647 → -2147483648 ≤ y → y ≤ 2147483647 →
      -2147483648 ≤ mx → -2147483648 ≤ my →
      (mw : Int) ≤ 2147483647 → (mh : Int) ≤ 2147483647 →
      mx + mw ≤ 2147483647 → my + mh ≤ 2147483647 →
      x + width ≤ 2147483647 → y + height ≤ 2147483647 →
      is_position_valid_on_monitor x y width height (mx, my) (mw, mh) =
        decide (x < mx + mw ∧ x + width > mx ∧ y < my + mh ∧ y + height > my))
    ∧ u32_as_i32 2147483648 = -2147483648
    ∧ is_position_valid_on_monitor 0 0 1 1 (0, 0) (2147483648, 1) = false
    ∧ ((0 : Int) < 0 + (2147483648 : Nat) ∧ (0 : Int) + (1 : Nat) > 0
        ∧ (0 : Int) < 0 + (1 : Nat) ∧ (0 : Int) + (1 : Nat) > 0) := by
  refine ⟨?_, by decide, by decide, by decide⟩
  intro x y width height mx my mw mh hx1 hx2 hy1 hy2 hmx hmy hmw hmh hmxw hmyh hxw hyh
  exact is_position_valid_eq x y width height mx my mw mh
    hx1 hx2 hy1 hy2 hmx hmy hmw hmh hmxw hmyh hxw hyh

/-- C9: once the pin flag has been applied to the live window, the command
performs exactly one synchronous write (independent of the debounce loop and
of whether the save itself succeeds), merging the new flag with the position
determined by the fallback chain: the live outer position if readable,
otherwise the persisted config's position, otherwise `(100, 100)`. -/
theorem C9_set_always_on_top (w : LiveWindow) (enabled : Bool) (fs : FileState)
    (save : WindowConfig → Except String Unit)
    (hset : w.set_aot_result = .ok ()) :
    (set_always_on_top_cmd (some w) enabled fs save).2.length = 1
    ∧ (∀ px py, w.outer_position = some (px, py) →
        (set_always_on_top_cmd (some w) enabled fs save).2 = [⟨px, py, enabled⟩])
    ∧ (∀ c, w.outer_position = none → load_window_config fs = .ok c →
        (set_always_on_top_cmd (some w) enabled fs save).2 = [⟨c.x, c.y, enabled⟩])
    ∧ (∀ m, w.outer_position = none → load_window_config fs = .error m →
        (set_always_on_top_cmd (some w) enabled fs save).2 = [⟨100, 100, enabled⟩]) := by
  refine ⟨?_, ?_, ?_, ?_⟩
  · simp only [set_always_on_top_cmd, hset]
    rcases w.outer_position with _ | q
    · rcases hload : load_window_config fs with m | c <;>
        rcases hsave : save _ with e | u <;> simp [hload, hsave]
    · rcases hsave : save _ with e | u <;> simp [hsave]
  · intro px py hpos
    simp only [set_always_on_top_cmd, hset, hpos]
    rcases hsave : save _ with e | u <;> simp [hsave]
  · intro c hpos hload
    simp only [set_always_on_top_cmd, hset, hpos, hload]
    rcases hsave : save _ with e | u <;> simp [hsave]
  · intro m hpos hload
    simp only [set_always_on_top_cmd, hset, hpos, hload]
    rcases hsave : save _ with e | u <;> simp [hsave]

/-- Witness for `C9_set_always_on_top`: with a readable live position
`(12, 34)` and a successful save, enabling the pin writes exactly
`{x := 12, y := 34, always_on_top := true}` once. -/
theorem C9_witness :
    (set_always_on_top_cmd (some ⟨.ok (), some (12, 34)⟩) true .missing
      (fun _ => .ok ())).2 = [⟨12, 34, true⟩] :=
  (C9_set_always_on_top ⟨.ok (), some (12, 34)⟩ true .missing
    (fun _ => .ok ()) rfl).2.1 12 34 rfl

end TodoSpec
